import Mathlib

/-!
Shallow embedding of the keyword-expansion / fuzzy-matching / relevance-scoring
pipeline of `src/app.py` (Reddit marketing explorer).

Conventions of the embedding:
* Python strings are Lean `String`s (`String.data : List Char`); `str.lower()`
  is a per-character lower-casing, `str.strip()` drops leading and trailing
  whitespace, `x in s` is substring containment.
* Python `datetime` values are modelled by their integer UTC timestamps
  (`datetime.utcfromtimestamp` is a monotone bijection, and the pipeline only
  compares creation times and copies them into the output record).
* The external collaborators that the repository imports are parameters of the
  embedding, as the spec directs (section 9): the `praw` search client is a
  function `String → String → Except String (List Submission)` (a raised
  exception is the `Except.error` case), the `fuzzywuzzy` similarity library is
  a `Fuzz` structure of two pure `String → String → Nat` functions, and the
  `inflect` pluralizer is a pure `String → String` function.
* Python `set` accumulation is modelled by insert-if-absent on lists
  (`addv`), and `list(set(...))` by `List.dedup`; the claims under study only
  depend on membership, never on set iteration order.
* Streamlit calls (`st.info`, `st.warning`, ...) are display-only side effects
  and have no bearing on the returned data; they are dropped.
-/

set_option maxHeartbeats 4000000
set_option maxRecDepth 100000

/-! ### Python string primitives -/

/-- Python `str.lower()` on the character list of a string. -/
def lowerStr (s : String) : String := ⟨s.data.map Char.toLower⟩

/-- Python `needle in hay` (substring containment), as a Bool. -/
def substrB (needle hay : String) : Bool :=
  hay.data.tails.any (fun t => needle.data.isPrefixOf t)

/-- Drop leading and trailing whitespace from a character list
(Python `str.strip()`). -/
def stripList (l : List Char) : List Char :=
  ((l.dropWhile Char.isWhitespace).reverse.dropWhile Char.isWhitespace).reverse

/-- Python `str.strip()`. -/
def pyStrip (s : String) : String := ⟨stripList s.data⟩

/-- Maximal runs of characters not satisfying `p`, with empty runs at
delimiter boundaries kept (they are filtered by the callers, matching the
emptiness checks the Python code performs on each piece). -/
def splitChunks (p : Char → Bool) : List Char → List (List Char)
  | [] => []
  | c :: cs =>
    if p c then [] :: splitChunks p cs
    else
      match splitChunks p cs with
      | [] => [[c]]
      | h :: t => (c :: h) :: t

/-- Split a string at characters satisfying `p`, discarding empty pieces. -/
def splitOnPred (p : Char → Bool) (s : String) : List String :=
  ((splitChunks p s.data).filter (fun l => l ≠ [])).map (fun l => (⟨l⟩ : String))

/-- Python `str.split()` with no argument: split on whitespace runs,
no empty pieces. -/
def pySplitWs (s : String) : List String :=
  splitOnPred Char.isWhitespace s

/-- The delimiters of `re.split(r'[,;\n]+', ...)` in `process_multiple_keywords`. -/
def isDelim (c : Char) : Bool := c = ',' || c = ';' || c = '\n'

/-- `re.split(r'[,;\n]+', s)`: the runs between delimiter characters.  The
regex `+` merges consecutive delimiters, so apart from boundary empties (which
the caller discards anyway) the pieces are exactly the nonempty runs. -/
def splitKeywords (s : String) : List String := splitOnPred isDelim s

/-- Python `sep.join(pieces)`. -/
def joinWith (sep : String) : List String → String
  | [] => ""
  | [x] => x
  | x :: xs => x ++ sep ++ joinWith sep xs

/-- Python `set.add`: insert a string if not already present.  The claims only
depend on membership, so insertion order stands in for set iteration order. -/
def addv (l : List String) (s : String) : List String :=
  if s ∈ l then l else l ++ [s]

/-! ### KeywordExpander — `generate_keyword_variations`, `process_multiple_keywords`
(src/app.py lines 26-83).  `pl` is the `inflect` engine's `p.plural`. -/

/-- The `for i, word in enumerate(words)` loop of `generate_keyword_variations`
(lines 44-52): for each index whose pluralized word is truthy and differs from
the original, add the space-joined, hyphen-joined and concatenated spellings of
the word list with that word pluralized. -/
def pluralAdds (pl : String → String) (words : List String) :
    List Nat → List String → List String
  | [], acc => acc
  | i :: rest, acc =>
    let word := words.getD i ""
    let plural_word := pl word
    if plural_word ≠ "" ∧ plural_word ≠ word then
      let plural_words := words.set i plural_word
      pluralAdds pl words rest
        (addv (addv (addv acc (joinWith " " plural_words))
          (joinWith "-" plural_words)) (joinWith "" plural_words))
    else
      pluralAdds pl words rest acc

/-- `generate_keyword_variations(keyword)` (src/app.py lines 26-66). -/
def generate_keyword_variations (pl : String → String) (keyword : String) :
    List String :=
  let keyword_clean := lowerStr (pyStrip keyword)
  let variations := addv [] keyword_clean
  let words := pySplitWs keyword_clean
  let variations :=
    if 1 < words.length then
      pluralAdds pl words (List.range words.length)
        (addv (addv variations (joinWith "-" words)) (joinWith "" words))
    else variations
  let variations :=
    if words.length = 1 then
      let plural := pl keyword_clean
      if plural ≠ "" ∧ plural ≠ keyword_clean then addv variations plural
      else variations
    else variations
  let variations :=
    if 1 < words.length then
      addv (addv variations (joinWith " " words)) (joinWith "_" words)
    else variations
  variations

/-- `process_multiple_keywords(keyword_input)` (src/app.py lines 68-83):
split on `,`/`;`/newline, strip each piece, drop empty pieces, expand each
surviving piece, and deduplicate the union. -/
def process_multiple_keywords (pl : String → String) (keyword_input : String) :
    List String :=
  if pyStrip keyword_input = "" then []
  else
    let keywords := splitKeywords keyword_input
    let all_variations := keywords.foldl
      (fun acc piece =>
        let keyword := pyStrip piece
        if keyword ≠ "" then acc ++ generate_keyword_variations pl keyword
        else acc) []
    all_variations.dedup

/-! ### MatchEngine — `fuzzy_match_keywords` (src/app.py lines 85-107). -/

/-- The external similarity collaborator (`fuzzywuzzy.fuzz`), modelled per the
spec's section 9 as two swappable pure functions: `ratio` is `fuzz.ratio`
(normalized edit-distance similarity, 0-100) and `windowRatio` is
`fuzz.partial_ratio` (best-window similarity, 0-100). -/
structure Fuzz where
  ratio : String → String → Nat
  windowRatio : String → String → Nat

/-- The direct-substring loop of `fuzzy_match_keywords` (lines 90-92):
the first variation occurring in the lower-cased text. -/
def subLoop : List String → String → Option String
  | [], _ => none
  | v :: rest, tl => if substrB v tl then some v else subLoop rest tl

/-- The inner `for word in words` loop (lines 97-100): the first token whose
similarity ratio with the variation reaches the threshold yields that ratio. -/
def tokenLoop (fz : Fuzz) (v : String) (th : Nat) : List String → Option Nat
  | [] => none
  | w :: ws =>
    let r := fz.ratio v w
    if th ≤ r then some r else tokenLoop fz v th ws

/-- The outer `for variation in keyword_variations` loop of the fuzzy stage
(lines 96-105): for each variation in order, try its tokens, then its
whole-text partial ratio, before moving to the next variation. -/
def fuzzyLoop (fz : Fuzz) (text_lower : String) (words : List String)
    (th : Nat) : List String → Bool × Option String × Nat
  | [] => (false, none, 0)
  | v :: rest =>
    match tokenLoop fz v th words with
    | some r => (true, some v, r)
    | none =>
      let r := fz.windowRatio v text_lower
      if th ≤ r then (true, some v, r)
      else fuzzyLoop fz text_lower words th rest

/-- `fuzzy_match_keywords(text, keyword_variations, threshold)`
(src/app.py lines 85-107), returning `(matched, matched_variation, score)`. -/
def fuzzy_match_keywords (fz : Fuzz) (text : String)
    (keyword_variations : List String) (threshold : Nat) :
    Bool × Option String × Nat :=
  let text_lower := lowerStr text
  match subLoop keyword_variations text_lower with
  | some v => (true, some v, 100)
  | none => fuzzyLoop fz text_lower (pySplitWs text_lower) threshold
      keyword_variations

/-! ### RelevanceScorer — `calculate_marketing_relevance`,
`categorize_marketing_potential` (src/app.py lines 109-183). -/

/-- High-value buying intent signals (+3 each), src/app.py lines 114-122. -/
def high_intent_phrases : List String :=
  ["looking for", "need help", "recommendations", "where to buy", "best place",
   "help me choose", "advice needed", "should i buy", "worth buying",
   "comparing", "vs", "better option", "alternatives", "suggestions",
   "budget", "price range", "affordable", "cheap", "expensive",
   "quality", "reviews", "experience with", "anyone tried",
   "thinking of buying", "planning to buy", "about to purchase",
   "custom", "made to order", "personalized", "bespoke"]

/-- Medium-value research signals (+2 each), src/app.py lines 125-129. -/
def medium_intent_phrases : List String :=
  ["what do you think", "opinions", "thoughts", "feedback",
   "pros and cons", "worth it", "good idea", "bad idea",
   "how much", "cost", "pricing", "quotes"]

/-- Low-value signals (already purchased, -2 each), src/app.py lines 132-137. -/
def low_intent_phrases : List String :=
  ["my new", "just got", "finally received", "arrived today",
   "love my", "so happy with", "perfect", "exactly what i wanted",
   "couldn\x27t be happier", "amazing quality", "here it is",
   "finally here", "delivery", "unboxing"]

/-- Question indicators, src/app.py line 140. -/
def question_patterns : List String :=
  ["?", "how", "what", "where", "when", "why", "which", "who"]

/-- `calculate_marketing_relevance(post_title, post_body)`
(src/app.py lines 109-172).  The three phrase for-loops accumulate score and
reasons in list order; they are modelled by `filter`/`map`, which produce the
same score and the same reason list in the same order. -/
def calculate_marketing_relevance (post_title post_body : String) :
    Int × List String :=
  let text := lowerStr (post_title ++ " " ++ post_body)
  let hi := high_intent_phrases.filter (fun ph => substrB ph text)
  let med := medium_intent_phrases.filter (fun ph => substrB ph text)
  let lo := low_intent_phrases.filter (fun ph => substrB ph text)
  let score : Int := 3 * hi.length + 2 * med.length - 2 * lo.length
  let reasons :=
    hi.map (fun ph => "High intent: \x27" ++ ph ++ "\x27") ++
    med.map (fun ph => "Medium intent: \x27" ++ ph ++ "\x27") ++
    lo.map (fun ph => "Low intent: \x27" ++ ph ++ "\x27")
  let question_count :=
    (question_patterns.filter (fun pat => substrB pat text)).length
  let score := if 0 < question_count then score + (min question_count 3 : Nat)
    else score
  let reasons := if 0 < question_count then
      reasons ++ ["Question indicators: " ++ toString question_count]
    else reasons
  (max score 0, reasons)

/-- `categorize_marketing_potential(score)` (src/app.py lines 174-183). -/
def categorize_marketing_potential (score : Int) : String :=
  if 6 ≤ score then "High"
  else if 3 ≤ score then "Medium"
  else if 1 ≤ score then "Low"
  else "Very Low"

/-! ### PostAnalysisPipeline — `get_enhanced_reddit_posts`
(src/app.py lines 185-287). -/

/-- A `praw` submission record, as read by the pipeline.  `created_utc` is the
integer UTC timestamp; `upvote_ratio` is a float in the source and is carried
through unchanged by the pipeline, so it is modelled as an opaque integer
payload; `subreddit` holds `submission.subreddit.display_name`. -/
structure Submission where
  title : String
  selftext : String
  is_self : Bool
  url : String
  created_utc : Int
  num_comments : Int
  score : Int
  upvote_ratio : Int
  subreddit : String
  permalink : String
deriving DecidableEq, Repr

/-- One output record of the pipeline (the dict built at src/app.py
lines 254-268).  Field names are the dict keys with spaces removed;
`Created` is the timestamp standing for `created.date()`. -/
structure Post where
  Title : String
  Body : String
  Score : Int
  UpvoteRatio : Int
  Comments : Int
  Subreddit : String
  Permalink : String
  Created : Int
  MatchedKeyword : Option String
  MatchScore : Nat
  MarketingScore : Int
  MarketingPotential : String
  RelevanceReasons : String
deriving DecidableEq, Repr

/-- `is_internal_link(post)` (src/app.py lines 185-186). -/
def is_internal_link (s : Submission) : Bool :=
  (!s.is_self && substrB "reddit.com" s.url) || s.is_self

/-- The comment-filter `continue` chain (src/app.py lines 237-248): `true`
when the submission survives.  An unrecognized operator falls through every
`elif` and the post is kept, exactly as in the source. -/
def commentFilterPass : Option (String × Int) → Int → Bool
  | none, _ => true
  | some (op, v), n =>
    if op = "=" then decide (n = v)
    else if op = ">" then decide (v < n)
    else if op = ">=" then decide (v ≤ n)
    else if op = "<" then decide (n < v)
    else if op = "<=" then decide (n ≤ v)
    else true

/-- The per-submission body of the query loop (src/app.py lines 221-268):
date-range and internal-link admission, fuzzy keyword match, comment filter,
relevance scoring, and construction of the output record.  Returns `none`
when the submission is discarded. -/
def qualifySubmission (fz : Fuzz) (keyword_variations : List String)
    (start_date end_date : Int) (comment_filter : Option (String × Int))
    (fuzzy_threshold : Nat) (s : Submission) : Option Post :=
  let created := s.created_utc
  if start_date ≤ created ∧ created ≤ end_date ∧ is_internal_link s = true then
    let title_text := s.title
    let body_text := if s.is_self then s.selftext else ""
    let combined_text := title_text ++ " " ++ body_text
    let m := fuzzy_match_keywords fz combined_text keyword_variations
      fuzzy_threshold
    if m.1 = true then
      if commentFilterPass comment_filter s.num_comments = true then
        let rel := calculate_marketing_relevance title_text body_text
        some
          { Title := title_text
            Body := if 500 < body_text.data.length then
                (⟨body_text.data.take 500⟩ : String) ++ "..."
              else body_text
            Score := s.score
            UpvoteRatio := s.upvote_ratio
            Comments := s.num_comments
            Subreddit := s.subreddit
            Permalink := "https://reddit.com" ++ s.permalink
            Created := created
            MatchedKeyword := m.2.1
            MatchScore := m.2.2
            MarketingScore := rel.1
            MarketingPotential := categorize_marketing_potential rel.1
            RelevanceReasons := if rel.2 ≠ [] then joinWith "; " rel.2
              else "No specific signals" }
      else none
    else none
  else none

/-- The fixed intent-based search queries (src/app.py lines 209-212). -/
def intent_queries : List String :=
  ["title:\"looking for\"", "title:\"need help\"", "title:\"recommendations\"",
   "title:\"help me choose\"", "title:\"advice\"", "title:\"suggestions\""]

/-- The search query list (src/app.py lines 202-213): a `title:"..."` query
for each of the first 5 keyword variations, then the intent queries. -/
def searchQueries (keyword_variations : List String) : List String :=
  (keyword_variations.take 5).map (fun v => "title:\"" ++ v ++ "\"") ++
    intent_queries

/-- The `for query in search_queries` loop for one channel (src/app.py
lines 218-271).  `search` is the external collaborator; an `Except.error`
is a raised exception, which aborts the remaining queries of this channel
(the flag `true` in the result records that the channel raised).  After each
successful query the accumulated count is checked against the 200 cap
(line 270); the per-query appends themselves are unchecked. -/
def runQueries (search : String → String → Except String (List Submission))
    (qual : Submission → Option Post) (sub : String) :
    List String → List Post → List Post × Bool
  | [], posts => (posts, false)
  | q :: qs, posts =>
    match search sub q with
    | Except.error _ => (posts, true)
    | Except.ok results =>
      let posts2 := posts ++ results.filterMap qual
      if 200 ≤ posts2.length then (posts2, false)
      else runQueries search qual sub qs posts2

/-- The `for sub in target_subreddits` loop with its `try/except`
(src/app.py lines 215-277).  On an exception the warning is displayed and the
next channel is processed with the posts accumulated so far (the line-273 cap
check is skipped, since the exception jumps to the handler); otherwise the
line-273 check stops everything once the cap is reached. -/
def runSubs (search : String → String → Except String (List Submission))
    (qual : Submission → Option Post) (queries : List String) :
    List String → List Post → List Post
  | [], posts => posts
  | sub :: rest, posts =>
    let pr := runQueries search qual sub queries posts
    if pr.2 = true then runSubs search qual queries rest pr.1
    else if 200 ≤ pr.1.length then pr.1
    else runSubs search qual queries rest pr.1

/-- The final permalink deduplication (src/app.py lines 279-287): `seen` is
the set of permalinks already emitted; the first occurrence wins. -/
def dedupAux (seen : List String) : List Post → List Post
  | [] => []
  | p :: rest =>
    if p.Permalink ∈ seen then dedupAux seen rest
    else p :: dedupAux (p.Permalink :: seen) rest

/-- `get_enhanced_reddit_posts(keyword_input, start_date, end_date,
subreddits, comment_filter, fuzzy_threshold)` (src/app.py lines 188-287),
parameterized by the external search client `search`, the pluralizer `pl`
and the similarity library `fz`. -/
def get_enhanced_reddit_posts
    (search : String → String → Except String (List Submission))
    (pl : String → String) (fz : Fuzz) (keyword_input : String)
    (start_date end_date : Int) (subreddits : List String)
    (comment_filter : Option (String × Int)) (fuzzy_threshold : Nat) :
    List Post :=
  let keyword_variations := process_multiple_keywords pl keyword_input
  if keyword_variations = [] then []
  else
    let target_subreddits := if subreddits = [] then ["all"] else subreddits
    let queries := searchQueries keyword_variations
    let qual := qualifySubmission fz keyword_variations start_date end_date
      comment_filter fuzzy_threshold
    let posts := runSubs search qual queries target_subreddits []
    dedupAux [] posts

/-! ### Concrete collaborator instances, used by counterexamples and
witnesses.  `simScore` is the standard Levenshtein-style similarity
`200 * lcs / (len a + len b)` (the ratio computed by the
`python-Levenshtein` backend of `fuzz.ratio`, floored), and `winScore`
takes the best such score over the length-`|a|` windows of `b`, the shape of
`fuzz.partial_ratio`.  Any deterministic 0-100 similarity would do: the spec
(section 9) leaves the similarity library swappable. -/

/-- Longest-common-subsequence length with explicit fuel (structural
recursion, so that it reduces inside `decide`). -/
def lcsAux : Nat → List Char → List Char → Nat
  | 0, _, _ => 0
  | Nat.succ _, [], _ => 0
  | Nat.succ _, _ :: _, [] => 0
  | Nat.succ f, a :: as, b :: bs =>
    if a = b then lcsAux f as bs + 1
    else max (lcsAux f (a :: as) bs) (lcsAux f as (b :: bs))

/-- Longest-common-subsequence length of two character lists. -/
def lcsLen (a b : List Char) : Nat := lcsAux (a.length + b.length) a b

/-- `200 * lcs / (|a| + |b|)`, a 0-100 similarity score. -/
def simScore (a b : List Char) : Nat :=
  if a.length + b.length = 0 then 100
  else 200 * lcsLen a b / (a.length + b.length)

/-- Best `simScore` of `a` against a length-`|a|` window of `b`. -/
def winScore (a b : List Char) : Nat :=
  ((List.range (b.length - a.length + 1)).map
    (fun i => simScore a ((b.drop i).take a.length))).foldl max 0

/-- A concrete similarity collaborator built from `simScore`/`winScore`. -/
def myFz : Fuzz :=
  { ratio := fun a b => simScore a.data b.data
    windowRatio := fun a b => winScore a.data b.data }

/-- The identity pluralizer: a legitimate instance of the pluralization
contract (deterministic, returns the input unchanged where it has no distinct
plural). -/
def idPl : String → String := fun w => w

/-! ### Lemmas about the match engine loops -/

lemma subLoop_eq_none {kv : List String} {tl : String}
    (h : ∀ v ∈ kv, substrB v tl = false) : subLoop kv tl = none := by
  induction kv with
  | nil => rfl
  | cons v rest ih =>
    show (if substrB v tl then some v else subLoop rest tl) = none
    rw [h v (by simp), if_neg (by simp)]
    exact ih fun u hu => h u (by simp [hu])

lemma subLoop_eq_some {kv : List String} {tl : String}
    (h : ∃ v ∈ kv, substrB v tl = true) :
    ∃ u, subLoop kv tl = some u ∧ u ∈ kv ∧ substrB u tl = true := by
  induction kv with
  | nil => simp at h
  | cons v rest ih =>
    show ∃ u, (if substrB v tl then some v else subLoop rest tl) = some u ∧ _
    by_cases hv : substrB v tl = true
    · exact ⟨v, by rw [if_pos hv], by simp, hv⟩
    · rw [if_neg (by simp [hv])]
      obtain ⟨w, hw, hws⟩ := h
      rcases List.mem_cons.mp hw with rfl | hw'
      · exact absurd hws hv
      · obtain ⟨u, hu1, hu2, hu3⟩ := ih ⟨w, hw', hws⟩
        exact ⟨u, hu1, by simp [hu2], hu3⟩

lemma tokenLoop_eq_none {fz : Fuzz} {v : String} {th : Nat} {ws : List String}
    (h : ∀ w ∈ ws, fz.ratio v w < th) : tokenLoop fz v th ws = none := by
  induction ws with
  | nil => rfl
  | cons w ws ih =>
    show (if th ≤ fz.ratio v w then some (fz.ratio v w)
      else tokenLoop fz v th ws) = none
    rw [if_neg (by exact Nat.not_le.mpr (h w (by simp)))]
    exact ih fun u hu => h u (by simp [hu])

lemma tokenLoop_eq_some {fz : Fuzz} {v : String} {th : Nat} {ws : List String}
    {r : Nat} (h : tokenLoop fz v th ws = some r) :
    th ≤ r ∧ ∃ w ∈ ws, r = fz.ratio v w := by
  induction ws with
  | nil => simp [tokenLoop] at h
  | cons w ws ih =>
    by_cases hw : th ≤ fz.ratio v w
    · have : some (fz.ratio v w) = some r := by
        rw [← h]; show _ = (if th ≤ fz.ratio v w then _ else _); rw [if_pos hw]
      obtain rfl : fz.ratio v w = r := Option.some.inj this
      exact ⟨hw, w, by simp, rfl⟩
    · have h' : tokenLoop fz v th ws = some r := by
        rw [← h]; show _ = (if th ≤ fz.ratio v w then _ else _)
        rw [if_neg hw]
      obtain ⟨h1, w', hw', hr⟩ := ih h'
      exact ⟨h1, w', by simp [hw'], hr⟩

lemma fuzzyLoop_spec (fz : Fuzz) (tl : String) (words : List String) (th : Nat)
    (kv : List String) :
    fuzzyLoop fz tl words th kv = (false, none, 0) ∨
      ∃ v ∈ kv, ∃ r, fuzzyLoop fz tl words th kv = (true, some v, r) ∧ th ≤ r := by
  induction kv with
  | nil => left; rfl
  | cons v rest ih =>
    cases htok : tokenLoop fz v th words with
    | some r =>
      right
      refine ⟨v, by simp, r, ?_, (tokenLoop_eq_some htok).1⟩
      show (match tokenLoop fz v th words with
        | some r => (true, some v, r)
        | none => _) = _
      rw [htok]
    | none =>
      by_cases hwin : th ≤ fz.windowRatio v tl
      · right
        refine ⟨v, by simp, fz.windowRatio v tl, ?_, hwin⟩
        show (match tokenLoop fz v th words with
          | some r => (true, some v, r)
          | none => if th ≤ fz.windowRatio v tl then (true, some v, _)
              else fuzzyLoop fz tl words th rest) = _
        rw [htok, if_pos hwin]
      · have hstep : fuzzyLoop fz tl words th (v :: rest)
            = fuzzyLoop fz tl words th rest := by
          show (match tokenLoop fz v th words with
            | some r => (true, some v, r)
            | none => if th ≤ fz.windowRatio v tl then (true, some v, _)
                else fuzzyLoop fz tl words th rest) = _
          rw [htok, if_neg hwin]
        rw [hstep]
        rcases ih with h | ⟨u, hu, r, heq, hr⟩
        · left; exact h
        · right; exact ⟨u, by simp [hu], r, heq, hr⟩

lemma subLoop_some_mem {kv : List String} {tl : String} {v : String}
    (h : subLoop kv tl = some v) : v ∈ kv := by
  induction kv with
  | nil => simp [subLoop] at h
  | cons u rest ih =>
    by_cases hu : substrB u tl = true
    · have : some u = some v := by
        rw [← h]; show _ = (if substrB u tl then some u else _); rw [if_pos hu]
      simp [Option.some.inj this]
    · have h' : subLoop rest tl = some v := by
        rw [← h]; show _ = (if substrB u tl then some u else _)
        rw [if_neg hu]
      simp [ih h']

/-- C5: if some variant occurs as a substring of the lower-cased text, the
match engine returns matched=true with matchScore exactly 100, for every
similarity collaborator and every fuzzyThreshold. -/
theorem c5_substring_hundred (fz : Fuzz) (text : String) (kv : List String)
    (th : Nat) (h : ∃ v ∈ kv, substrB v (lowerStr text) = true) :
    (fuzzy_match_keywords fz text kv th).1 = true ∧
      (fuzzy_match_keywords fz text kv th).2.2 = 100 := by
  obtain ⟨u, hu, _, _⟩ := subLoop_eq_some h
  have heq : fuzzy_match_keywords fz text kv th = (true, some u, 100) := by
    show (match subLoop kv (lowerStr text) with
      | some v => (true, some v, 100)
      | none => fuzzyLoop fz (lowerStr text) (pySplitWs (lowerStr text)) th kv)
        = _
    rw [hu]
  rw [heq]
  exact ⟨rfl, rfl⟩

/-- Witness for C5 at a concrete input: "ring" is a substring of the
lower-cased "Ring shop", and the result is a score-100 match. -/
theorem c5_substring_hundred_witness :
    (∃ v ∈ ["ring"], substrB v (lowerStr "Ring shop") = true) ∧
      (fuzzy_match_keywords myFz "Ring shop" ["ring"] 80).1 = true ∧
      (fuzzy_match_keywords myFz "Ring shop" ["ring"] 80).2.2 = 100 :=
  ⟨by decide, c5_substring_hundred myFz "Ring shop" ["ring"] 80 (by decide)⟩

/-- C10: the MatchResult is internally consistent: when matched, the returned
variant is one of the supplied variants and the score is 100 (substring hit)
or at least the threshold (fuzzy hit); when not matched, the variant is absent
and the score is 0. -/
theorem c10_match_result_invariant (fz : Fuzz) (text : String)
    (kv : List String) (th : Nat) :
    ((fuzzy_match_keywords fz text kv th).1 = true →
      ∃ v ∈ kv, (fuzzy_match_keywords fz text kv th).2.1 = some v ∧
        ((fuzzy_match_keywords fz text kv th).2.2 = 100 ∨
          th ≤ (fuzzy_match_keywords fz text kv th).2.2)) ∧
    ((fuzzy_match_keywords fz text kv th).1 = false →
      (fuzzy_match_keywords fz text kv th).2.1 = none ∧
        (fuzzy_match_keywords fz text kv th).2.2 = 0) := by
  cases hsub : subLoop kv (lowerStr text) with
  | some v =>
    have heq : fuzzy_match_keywords fz text kv th = (true, some v, 100) := by
      show (match subLoop kv (lowerStr text) with
        | some u => (true, some u, 100)
        | none => fuzzyLoop fz (lowerStr text) (pySplitWs (lowerStr text)) th
            kv) = _
      rw [hsub]
    rw [heq]
    refine ⟨fun _ => ⟨v, subLoop_some_mem hsub, rfl, Or.inl rfl⟩, fun h => ?_⟩
    simp at h
  | none =>
    have heq : fuzzy_match_keywords fz text kv th
        = fuzzyLoop fz (lowerStr text) (pySplitWs (lowerStr text)) th kv := by
      show (match subLoop kv (lowerStr text) with
        | some u => (true, some u, 100)
        | none => fuzzyLoop fz (lowerStr text) (pySplitWs (lowerStr text)) th
            kv) = _
      rw [hsub]
    rcases fuzzyLoop_spec fz (lowerStr text) (pySplitWs (lowerStr text)) th kv
      with h | ⟨v, hv, r, hfl, hr⟩
    · rw [heq, h]
      exact ⟨fun hh => by simp at hh, fun _ => ⟨rfl, rfl⟩⟩
    · rw [heq, hfl]
      exact ⟨fun _ => ⟨v, hv, rfl, Or.inr hr⟩, fun hh => by simp at hh⟩

/-- Witness for C10 at a concrete matched input. -/
theorem c10_match_result_invariant_witness :
    ∃ v ∈ ["ring"],
      (fuzzy_match_keywords myFz "ring shop" ["ring"] 80).2.1 = some v ∧
      ((fuzzy_match_keywords myFz "ring shop" ["ring"] 80).2.2 = 100 ∨
        80 ≤ (fuzzy_match_keywords myFz "ring shop" ["ring"] 80).2.2) :=
  (c10_match_result_invariant myFz "ring shop" ["ring"] 80).1 (by decide)

/-- C2 (amended): token and whole-text checks are interleaved per variant.
If the first variant has no substring hit, none of its token ratios reaches
the threshold, but its whole-text partial ratio does, then that partial match
is returned — regardless of the remaining variants, which may well
token-match. -/
theorem c2_interleaved (fz : Fuzz) (text v : String) (rest : List String)
    (th : Nat)
    (hsub : ∀ u ∈ v :: rest, substrB u (lowerStr text) = false)
    (htok : ∀ w ∈ pySplitWs (lowerStr text), fz.ratio v w < th)
    (hwin : th ≤ fz.windowRatio v (lowerStr text)) :
    fuzzy_match_keywords fz text (v :: rest) th
      = (true, some v, fz.windowRatio v (lowerStr text)) := by
  have h1 : subLoop (v :: rest) (lowerStr text) = none := subLoop_eq_none hsub
  have h2 : fuzzy_match_keywords fz text (v :: rest) th
      = fuzzyLoop fz (lowerStr text) (pySplitWs (lowerStr text)) th
          (v :: rest) := by
    show (match subLoop (v :: rest) (lowerStr text) with
      | some u => (true, some u, 100)
      | none => fuzzyLoop fz (lowerStr text) (pySplitWs (lowerStr text)) th
          (v :: rest)) = _
    rw [h1]
  rw [h2]
  show (match tokenLoop fz v th (pySplitWs (lowerStr text)) with
    | some r => (true, some v, r)
    | none =>
      if th ≤ fz.windowRatio v (lowerStr text) then
        (true, some v, fz.windowRatio v (lowerStr text))
      else fuzzyLoop fz (lowerStr text) (pySplitWs (lowerStr text)) th rest)
      = _
  rw [tokenLoop_eq_none htok, if_pos hwin]

/-- Counterexample to C2 as stated: with the concrete similarity collaborator
`myFz`, text "zabx qrstx", variants ["abc", "qrsta"] and threshold 60, no
variant is a substring, the variant "qrsta" token-fuzzy-matches (ratio 80 with
token "qrstx"), yet the engine returns the whole-text partial score 66 of the
earlier variant "abc" — a score that is no token ratio at all.  So a
whole-text partial match is returned even though a variant fuzzy-matches a
token. -/
theorem c2_counterexample :
    (∀ u ∈ ["abc", "qrsta"], substrB u (lowerStr "zabx qrstx") = false) ∧
    (∃ u ∈ ["abc", "qrsta"], ∃ w ∈ pySplitWs (lowerStr "zabx qrstx"),
      60 ≤ myFz.ratio u w) ∧
    fuzzy_match_keywords myFz "zabx qrstx" ["abc", "qrsta"] 60
      = (true, some "abc", 66) ∧
    66 = myFz.windowRatio "abc" (lowerStr "zabx qrstx") ∧
    ¬ ∃ u ∈ ["abc", "qrsta"], ∃ w ∈ pySplitWs (lowerStr "zabx qrstx"),
      (fuzzy_match_keywords myFz "zabx qrstx" ["abc", "qrsta"] 60).2.2
          = myFz.ratio u w ∧ 60 ≤ myFz.ratio u w := by
  decide

/-- Witness for the amended C2 at the counterexample input: the later variant
"qrsta" token-matches, yet the head variant's whole-text partial score is
returned. -/
theorem c2_interleaved_witness :
    (∀ u ∈ ["abc", "qrsta"], substrB u (lowerStr "zabx qrstx") = false) ∧
    (∀ w ∈ pySplitWs (lowerStr "zabx qrstx"), myFz.ratio "abc" w < 60) ∧
    60 ≤ myFz.windowRatio "abc" (lowerStr "zabx qrstx") ∧
    fuzzy_match_keywords myFz "zabx qrstx" ["abc", "qrsta"] 60
      = (true, some "abc", myFz.windowRatio "abc" (lowerStr "zabx qrstx")) :=
  ⟨by decide, by decide, by decide,
    c2_interleaved myFz "zabx qrstx" "abc" ["qrsta"] 60 (by decide) (by decide)
      (by decide)⟩

/-- C4: the category mapping is exactly: score ≥ 6 is High, 3 ≤ score < 6 is
Medium, 1 ≤ score < 3 is Low, score < 1 is Very Low — with closed boundaries
at 6, 3 and 1. -/
theorem c4_category_boundaries (score : Int) :
    (categorize_marketing_potential score = "High" ↔ 6 ≤ score) ∧
    (categorize_marketing_potential score = "Medium" ↔ 3 ≤ score ∧ score < 6) ∧
    (categorize_marketing_potential score = "Low" ↔ 1 ≤ score ∧ score < 3) ∧
    (categorize_marketing_potential score = "Very Low" ↔ score < 1) := by
  unfold categorize_marketing_potential
  split_ifs with h1 h2 h3 <;>
    refine ⟨?_, ?_, ?_, ?_⟩ <;> constructor <;> intro h <;>
    first
      | rfl
      | omega
      | exact absurd h (by decide)

/-- Witness for C4 at each boundary value. -/
theorem c4_category_boundaries_witness :
    categorize_marketing_potential 6 = "High" ∧
    categorize_marketing_potential 3 = "Medium" ∧
    categorize_marketing_potential 1 = "Low" ∧
    categorize_marketing_potential 0 = "Very Low" :=
  ⟨(c4_category_boundaries 6).1.mpr (by decide),
   (c4_category_boundaries 3).2.1.mpr (by decide),
   (c4_category_boundaries 1).2.2.1.mpr (by decide),
   (c4_category_boundaries 0).2.2.2.mpr (by decide)⟩

/-- C8: the relevance score is clamped at 0 (never negative), and the reasons
list still carries an entry for every low-intent phrase contained in the
lower-cased title+body text. -/
theorem c8_clamp_and_reasons (title body : String) :
    0 ≤ (calculate_marketing_relevance title body).1 ∧
    ∀ ph ∈ low_intent_phrases,
      substrB ph (lowerStr (title ++ " " ++ body)) = true →
        ("Low intent: \x27" ++ ph ++ "\x27")
          ∈ (calculate_marketing_relevance title body).2 := by
  constructor
  · exact le_max_right _ _
  · intro ph hmem hsub
    have hbase :
        ("Low intent: \x27" ++ ph ++ "\x27") ∈
          (high_intent_phrases.filter
              (fun p => substrB p (lowerStr (title ++ " " ++ body)))).map
              (fun p => "High intent: \x27" ++ p ++ "\x27") ++
            (medium_intent_phrases.filter
              (fun p => substrB p (lowerStr (title ++ " " ++ body)))).map
              (fun p => "Medium intent: \x27" ++ p ++ "\x27") ++
            (low_intent_phrases.filter
              (fun p => substrB p (lowerStr (title ++ " " ++ body)))).map
              (fun p => "Low intent: \x27" ++ p ++ "\x27") := by
      refine List.mem_append_right _ ?_
      exact List.mem_map_of_mem _ (List.mem_filter.mpr ⟨hmem, hsub⟩)
    show ("Low intent: \x27" ++ ph ++ "\x27") ∈
      (if 0 < (question_patterns.filter
          (fun pat => substrB pat (lowerStr (title ++ " " ++ body)))).length
        then _ ++ ["Question indicators: " ++ toString
          (question_patterns.filter
            (fun pat => substrB pat (lowerStr (title ++ " " ++ body)))).length]
        else _)
    split
    · exact List.mem_append_left _ hbase
    · exact hbase

/-- Witness for C8: "my new" is a matched low-intent phrase of the post
"My new ring just arrived! Love it"; the returned score is still ≥ 0 and the
reason entry is present. -/
theorem c8_clamp_and_reasons_witness :
    ("my new" ∈ low_intent_phrases ∧
      substrB "my new"
        (lowerStr ("My new ring just arrived! Love it" ++ " " ++ "")) = true) ∧
    0 ≤ (calculate_marketing_relevance "My new ring just arrived! Love it"
        "").1 ∧
    ("Low intent: \x27" ++ "my new" ++ "\x27")
      ∈ (calculate_marketing_relevance "My new ring just arrived! Love it"
        "").2 :=
  ⟨⟨by decide, by decide⟩,
    (c8_clamp_and_reasons "My new ring just arrived! Love it" "").1,
    (c8_clamp_and_reasons "My new ring just arrived! Love it" "").2 "my new"
      (by decide) (by decide)⟩

/-! ### Lemmas about stripping and splitting -/

lemma dropWhile_dropWhile {α : Type} (p : α → Bool) (l : List α) :
    (l.dropWhile p).dropWhile p = l.dropWhile p := by
  induction l with
  | nil => rfl
  | cons a t ih =>
    rw [List.dropWhile_cons]
    split
    · exact ih
    · rw [List.dropWhile_cons]; simp_all

lemma dropWhile_fixed_of_dropWhile_eq {α : Type} {p : α → Bool} {l m : List α}
    (hl : l.dropWhile p = l) (hm : m <+: l) : m.dropWhile p = m := by
  cases m with
  | nil => rfl
  | cons x xs =>
    obtain ⟨t, ht⟩ := hm
    rw [List.cons_append] at ht
    have hx : p x = false := by
      by_contra hx
      have hx' : p x = true := by revert hx; cases p x <;> simp
      have heq : l.dropWhile p = (xs ++ t).dropWhile p := by
        rw [← ht, List.dropWhile_cons, if_pos hx']
      have hlen := congrArg List.length (hl.symm.trans heq)
      have hle : ((xs ++ t).dropWhile p).length ≤ (xs ++ t).length :=
        (List.dropWhile_suffix p).sublist.length_le
      rw [← ht, List.length_cons] at hlen
      omega
    rw [List.dropWhile_cons, if_neg (by simp [hx])]

lemma stripList_idem (l : List Char) : stripList (stripList l) = stripList l := by
  unfold stripList
  set ws := Char.isWhitespace
  set A := l.dropWhile ws with hA
  set B := A.reverse.dropWhile ws with hB
  have hAfix : A.dropWhile ws = A := dropWhile_dropWhile ws l
  have hBfix : B.dropWhile ws = B := by rw [hB]; exact dropWhile_dropWhile ws A.reverse
  have hBrevpre : B.reverse <+: A := by
    have h1 : B <:+ A.reverse := List.dropWhile_suffix ws
    have h2 : B.reverse <+: A.reverse.reverse := List.reverse_prefix.mpr h1
    simpa using h2
  have hBrevfix : B.reverse.dropWhile ws = B.reverse :=
    dropWhile_fixed_of_dropWhile_eq hAfix hBrevpre
  rw [hBrevfix, List.reverse_reverse, hBfix]

lemma pyStrip_idem (s : String) : pyStrip (pyStrip s) = pyStrip s := by
  unfold pyStrip
  exact congrArg String.mk (stripList_idem s.data)

lemma nonws_mem_dropWhile {p : Char → Bool} {l : List Char} {c : Char}
    (hc : c ∈ l) (hw : p c = false) : c ∈ l.dropWhile p := by
  induction l with
  | nil => simp at hc
  | cons a t ih =>
    rw [List.dropWhile_cons]
    split
    · rcases List.mem_cons.mp hc with rfl | hct
      · simp_all
      · exact ih hct
    · exact hc

lemma stripList_ne_nil {l : List Char} {c : Char} (hc : c ∈ l)
    (hw : c.isWhitespace = false) : stripList l ≠ [] := by
  unfold stripList
  have h1 : c ∈ l.dropWhile Char.isWhitespace := nonws_mem_dropWhile hc hw
  have h2 : c ∈ (l.dropWhile Char.isWhitespace).reverse := by simpa using h1
  have h3 : c ∈ (l.dropWhile Char.isWhitespace).reverse.dropWhile
      Char.isWhitespace := nonws_mem_dropWhile h2 hw
  intro h
  rw [List.reverse_eq_nil_iff] at h
  simp [h] at h3

lemma pyStrip_ne_empty {s : String} {c : Char} (hc : c ∈ s.data)
    (hw : c.isWhitespace = false) : pyStrip s ≠ "" := by
  intro h
  exact stripList_ne_nil hc hw (congrArg String.data h)

lemma exists_nonws_of_pyStrip_ne {s : String} (h : pyStrip s ≠ "") :
    ∃ c ∈ s.data, c.isWhitespace = false := by
  by_contra hall
  push_neg at hall
  have hall' : ∀ c ∈ s.data, c.isWhitespace = true := by
    intro c hc
    have := hall c hc
    revert this; cases c.isWhitespace <;> simp
  have hdw : s.data.dropWhile Char.isWhitespace = [] :=
    List.dropWhile_eq_nil_iff.mpr hall'
  apply h
  show String.mk (stripList s.data) = ""
  unfold stripList
  rw [hdw]
  rfl

lemma splitChunks_chars {p : Char → Bool} :
    ∀ (l : List Char), ∀ m ∈ splitChunks p l, ∀ c ∈ m, c ∈ l := by
  intro l
  induction l with
  | nil => simp [splitChunks]
  | cons a t ih =>
    intro m hm c hc
    unfold splitChunks at hm
    by_cases ha : p a = true
    · rw [if_pos ha] at hm
      rcases List.mem_cons.mp hm with rfl | hm'
      · simp at hc
      · exact List.mem_cons_of_mem a (ih m hm' c hc)
    · rw [if_neg (by simp [ha])] at hm
      cases hS : splitChunks p t with
      | nil =>
        rw [hS] at hm
        simp at hm
        subst hm
        simp at hc
        simp [hc]
      | cons h0 t0 =>
        rw [hS] at hm
        rcases List.mem_cons.mp hm with rfl | hm'
        · rcases List.mem_cons.mp hc with rfl | hc'
          · simp
          · exact List.mem_cons_of_mem a (ih h0 (by rw [hS]; simp) c hc')
        · exact List.mem_cons_of_mem a
            (ih m (by rw [hS]; simp [hm']) c hc)

lemma splitOnPred_chars {p : Char → Bool} {s piece : String}
    (h : piece ∈ splitOnPred p s) : ∀ c ∈ piece.data, c ∈ s.data := by
  unfold splitOnPred at h
  obtain ⟨m, hm, heq⟩ := List.mem_map.mp h
  have hm' : m ∈ splitChunks p s.data := (List.mem_filter.mp hm).1
  intro c hc
  have : piece.data = m := by rw [← heq]
  rw [this] at hc
  exact splitChunks_chars s.data m hm' c hc

/-! ### Membership lemmas for the keyword expander -/

lemma addv_self (l : List String) (s : String) : s ∈ addv l s := by
  unfold addv
  split
  · assumption
  · simp

lemma addv_mono {l : List String} {x : String} (s : String) (h : x ∈ l) :
    x ∈ addv l s := by
  unfold addv
  split
  · exact h
  · exact List.mem_append_left _ h

lemma pluralAdds_mono {pl : String → String} {ws : List String} {x : String} :
    ∀ (idxs : List Nat) (acc : List String), x ∈ acc →
      x ∈ pluralAdds pl ws idxs acc := by
  intro idxs
  induction idxs with
  | nil => intro acc h; exact h
  | cons i rest ih =>
    intro acc h
    show x ∈ (if pl (ws.getD i "") ≠ "" ∧ pl (ws.getD i "") ≠ ws.getD i ""
      then pluralAdds pl ws rest
        (addv (addv (addv acc (joinWith " " (ws.set i (pl (ws.getD i "")))))
          (joinWith "-" (ws.set i (pl (ws.getD i "")))))
          (joinWith "" (ws.set i (pl (ws.getD i "")))))
      else pluralAdds pl ws rest acc)
    split
    · exact ih _ (addv_mono _ (addv_mono _ (addv_mono _ h)))
    · exact ih _ h

lemma pluralAdds_adds {pl : String → String} {ws : List String} :
    ∀ (idxs : List Nat) (acc : List String) (i : Nat), i ∈ idxs →
      pl (ws.getD i "") ≠ "" → pl (ws.getD i "") ≠ ws.getD i "" →
      joinWith " " (ws.set i (pl (ws.getD i ""))) ∈ pluralAdds pl ws idxs acc := by
  intro idxs
  induction idxs with
  | nil => intro acc i h; simp at h
  | cons j rest ih =>
    intro acc i hmem h1 h2
    rcases List.mem_cons.mp hmem with rfl | hmem'
    · show joinWith " " (ws.set i (pl (ws.getD i ""))) ∈
        (if pl (ws.getD i "") ≠ "" ∧ pl (ws.getD i "") ≠ ws.getD i ""
          then pluralAdds pl ws rest
            (addv (addv (addv acc (joinWith " " (ws.set i (pl (ws.getD i "")))))
              (joinWith "-" (ws.set i (pl (ws.getD i "")))))
              (joinWith "" (ws.set i (pl (ws.getD i "")))))
          else pluralAdds pl ws rest acc)
      rw [if_pos ⟨h1, h2⟩]
      exact pluralAdds_mono _ _
        (addv_mono _ (addv_mono _ (addv_self _ _)))
    · show joinWith " " (ws.set i (pl (ws.getD i ""))) ∈
        (if pl (ws.getD j "") ≠ "" ∧ pl (ws.getD j "") ≠ ws.getD j ""
          then pluralAdds pl ws rest
            (addv (addv (addv acc (joinWith " " (ws.set j (pl (ws.getD j "")))))
              (joinWith "-" (ws.set j (pl (ws.getD j "")))))
              (joinWith "" (ws.set j (pl (ws.getD j "")))))
          else pluralAdds pl ws rest acc)
      split
      · exact ih _ i hmem' h1 h2
      · exact ih _ i hmem' h1 h2

lemma generate_mem_clean (pl : String → String) (kw : String) :
    lowerStr (pyStrip kw) ∈ generate_keyword_variations pl kw := by
  unfold generate_keyword_variations
  simp only []
  by_cases h1 : 1 < (pySplitWs (lowerStr (pyStrip kw))).length
  · have h2 : ¬ (pySplitWs (lowerStr (pyStrip kw))).length = 1 := by omega
    rw [if_pos h1, if_neg h2, if_pos h1]
    exact addv_mono _ (addv_mono _ (pluralAdds_mono _ _
      (addv_mono _ (addv_mono _ (addv_self _ _)))))
  · rw [if_neg h1, if_neg h1]
    by_cases h2 : (pySplitWs (lowerStr (pyStrip kw))).length = 1
    · rw [if_pos h2]
      split
      · exact addv_mono _ (addv_self _ _)
      · exact addv_self _ _
    · rw [if_neg h2]
      exact addv_self _ _

lemma process_foldl_mono (pl : String → String) {x : String} :
    ∀ (pieces : List String) (acc : List String), x ∈ acc →
      x ∈ pieces.foldl
        (fun acc piece =>
          let keyword := pyStrip piece
          if keyword ≠ "" then acc ++ generate_keyword_variations pl keyword
          else acc) acc := by
  intro pieces
  induction pieces with
  | nil => intro acc h; exact h
  | cons q rest ih =>
    intro acc h
    show x ∈ rest.foldl _
      (if pyStrip q ≠ "" then acc ++ generate_keyword_variations pl (pyStrip q)
        else acc)
    apply ih
    split
    · exact List.mem_append_left _ h
    · exact h

lemma process_foldl_contrib (pl : String → String) {x : String} :
    ∀ (pieces : List String) (acc : List String) (piece : String),
      piece ∈ pieces → pyStrip piece ≠ "" →
      x ∈ generate_keyword_variations pl (pyStrip piece) →
      x ∈ pieces.foldl
        (fun acc piece =>
          let keyword := pyStrip piece
          if keyword ≠ "" then acc ++ generate_keyword_variations pl keyword
          else acc) acc := by
  intro pieces
  induction pieces with
  | nil => intro acc piece h; simp at h
  | cons q rest ih =>
    intro acc piece hmem hne hx
    rcases List.mem_cons.mp hmem with rfl | hmem'
    · show x ∈ rest.foldl _
        (if pyStrip piece ≠ "" then
          acc ++ generate_keyword_variations pl (pyStrip piece) else acc)
      rw [if_pos hne]
      exact process_foldl_mono pl rest _ (List.mem_append_right _ hx)
    · exact ih _ piece hmem' hne hx

/-- C6: expanding an empty-after-trimming input yields the empty variant set,
and every piece of the input that is non-empty after trimming contributes at
least its trimmed lower-cased self, so the variant set is non-empty. -/
theorem c6_expand_empty_nonempty (pl : String → String) (input : String) :
    (pyStrip input = "" → process_multiple_keywords pl input = []) ∧
    (∀ piece ∈ splitKeywords input, pyStrip piece ≠ "" →
      lowerStr (pyStrip piece) ∈ process_multiple_keywords pl input ∧
        process_multiple_keywords pl input ≠ []) := by
  constructor
  · intro h
    unfold process_multiple_keywords
    rw [if_pos h]
  · intro piece hp hne
    obtain ⟨c, hc, hcw⟩ := exists_nonws_of_pyStrip_ne hne
    have hc' : c ∈ input.data := splitOnPred_chars hp c hc
    have hinput : pyStrip input ≠ "" := pyStrip_ne_empty hc' hcw
    have hgen : lowerStr (pyStrip piece)
        ∈ generate_keyword_variations pl (pyStrip piece) := by
      have h := generate_mem_clean pl (pyStrip piece)
      rwa [pyStrip_idem] at h
    have hproc : process_multiple_keywords pl input
        = ((splitKeywords input).foldl
          (fun acc piece =>
            let keyword := pyStrip piece
            if keyword ≠ "" then acc ++ generate_keyword_variations pl keyword
            else acc) []).dedup := by
      unfold process_multiple_keywords
      rw [if_neg hinput]
    have hmem : lowerStr (pyStrip piece) ∈ process_multiple_keywords pl input := by
      rw [hproc]
      exact List.mem_dedup.mpr
        (process_foldl_contrib pl (splitKeywords input) [] piece hp hne hgen)
    exact ⟨hmem, fun h => by rw [h] at hmem; simp at hmem⟩

/-- Witness for C6: the blank inputs yield empty variant sets, and the piece
"Custom Ring" of the input " Custom Ring , " contributes "custom ring". -/
theorem c6_expand_empty_nonempty_witness :
    process_multiple_keywords idPl "" = [] ∧
    process_multiple_keywords idPl "   " = [] ∧
    (" Custom Ring " ∈ splitKeywords " Custom Ring , " ∧
      pyStrip " Custom Ring " ≠ "") ∧
    lowerStr (pyStrip " Custom Ring ")
      ∈ process_multiple_keywords idPl " Custom Ring , " ∧
    process_multiple_keywords idPl " Custom Ring , " ≠ [] :=
  ⟨(c6_expand_empty_nonempty idPl "").1 (by decide),
   (c6_expand_empty_nonempty idPl "   ").1 (by decide),
   ⟨by decide, by decide⟩,
   ((c6_expand_empty_nonempty idPl " Custom Ring , ").2 " Custom Ring "
     (by decide) (by decide)).1,
   ((c6_expand_empty_nonempty idPl " Custom Ring , ").2 " Custom Ring "
     (by decide) (by decide)).2⟩

/-- C7: expanding "custom ring" yields a variant set containing at least
"custom ring", "custom-ring", "customring", and "custom rings" (the latter
under the hypothesis that the pluralizer maps "ring" to "rings"). -/
theorem c7_custom_ring_variants (pl : String → String)
    (hpl : pl "ring" = "rings") :
    "custom ring" ∈ process_multiple_keywords pl "custom ring" ∧
    "custom-ring" ∈ process_multiple_keywords pl "custom ring" ∧
    "customring" ∈ process_multiple_keywords pl "custom ring" ∧
    "custom rings" ∈ process_multiple_keywords pl "custom ring" := by
  have hproc : process_multiple_keywords pl "custom ring"
      = (([] : List String)
          ++ generate_keyword_variations pl "custom ring").dedup := rfl
  have hgen : generate_keyword_variations pl "custom ring"
      = addv (addv (pluralAdds pl ["custom", "ring"] [0, 1]
          ["custom ring", "custom-ring", "customring"]) "custom ring")
        "custom_ring" := rfl
  have hmem : ∀ x : String,
      x ∈ generate_keyword_variations pl "custom ring" →
        x ∈ process_multiple_keywords pl "custom ring" := by
    intro x hx
    rw [hproc]
    exact List.mem_dedup.mpr (by simpa using hx)
  refine ⟨hmem _ ?_, hmem _ ?_, hmem _ ?_, hmem _ ?_⟩
  · rw [hgen]
    exact addv_mono _ (addv_self _ _)
  · rw [hgen]
    exact addv_mono _ (addv_mono _ (pluralAdds_mono _ _ (by decide)))
  · rw [hgen]
    exact addv_mono _ (addv_mono _ (pluralAdds_mono _ _ (by decide)))
  · rw [hgen]
    refine addv_mono _ (addv_mono _ ?_)
    have h := @pluralAdds_adds pl ["custom", "ring"] [0, 1]
      ["custom ring", "custom-ring", "customring"] 1 (by decide)
      (by rw [show (["custom", "ring"].getD 1 "") = "ring" from rfl, hpl]
          decide)
      (by rw [show (["custom", "ring"].getD 1 "") = "ring" from rfl, hpl]
          decide)
    have harg : joinWith " "
        (["custom", "ring"].set 1 (pl (["custom", "ring"].getD 1 "")))
          = "custom rings" := by
      rw [show (["custom", "ring"].getD 1 "") = "ring" from rfl, hpl]
      decide
    rwa [harg] at h

/-- Witness for C7 with an explicit pluralizer sending "ring" to "rings". -/
theorem c7_custom_ring_variants_witness :
    ((fun w => if w = "ring" then "rings" else w) "ring" = "rings") ∧
    "custom ring" ∈ process_multiple_keywords
      (fun w => if w = "ring" then "rings" else w) "custom ring" ∧
    "custom-ring" ∈ process_multiple_keywords
      (fun w => if w = "ring" then "rings" else w) "custom ring" ∧
    "customring" ∈ process_multiple_keywords
      (fun w => if w = "ring" then "rings" else w) "custom ring" ∧
    "custom rings" ∈ process_multiple_keywords
      (fun w => if w = "ring" then "rings" else w) "custom ring" :=
  ⟨by decide,
    c7_custom_ring_variants (fun w => if w = "ring" then "rings" else w)
      (by decide)⟩

/-! ### Lemmas about the pipeline loops -/

lemma runQueries_cons_err {search : String → String → Except String (List Submission)}
    {qual : Submission → Option Post} {sub q : String} {qs : List String}
    {posts : List Post} {e : String} (h : search sub q = Except.error e) :
    runQueries search qual sub (q :: qs) posts = (posts, true) := by
  show (match search sub q with
    | Except.error _ => (posts, true)
    | Except.ok results =>
      if 200 ≤ (posts ++ results.filterMap qual).length then
        (posts ++ results.filterMap qual, false)
      else runQueries search qual sub qs (posts ++ results.filterMap qual)) = _
  rw [h]

lemma runQueries_cons_ok_break
    {search : String → String → Except String (List Submission)}
    {qual : Submission → Option Post} {sub q : String} {qs : List String}
    {posts : List Post} {res : List Submission}
    (h : search sub q = Except.ok res)
    (hlen : 200 ≤ (posts ++ res.filterMap qual).length) :
    runQueries search qual sub (q :: qs) posts
      = (posts ++ res.filterMap qual, false) := by
  show (match search sub q with
    | Except.error _ => (posts, true)
    | Except.ok results =>
      if 200 ≤ (posts ++ results.filterMap qual).length then
        (posts ++ results.filterMap qual, false)
      else runQueries search qual sub qs (posts ++ results.filterMap qual)) = _
  rw [h]
  exact if_pos hlen

lemma runQueries_cons_ok_cont
    {search : String → String → Except String (List Submission)}
    {qual : Submission → Option Post} {sub q : String} {qs : List String}
    {posts : List Post} {res : List Submission}
    (h : search sub q = Except.ok res)
    (hlen : (posts ++ res.filterMap qual).length ≤ 199) :
    runQueries search qual sub (q :: qs) posts
      = runQueries search qual sub qs (posts ++ res.filterMap qual) := by
  show (match search sub q with
    | Except.error _ => (posts, true)
    | Except.ok results =>
      if 200 ≤ (posts ++ results.filterMap qual).length then
        (posts ++ results.filterMap qual, false)
      else runQueries search qual sub qs (posts ++ results.filterMap qual)) = _
  rw [h]
  exact if_neg (by omega)

lemma runSubs_cons {search : String → String → Except String (List Submission)}
    {qual : Submission → Option Post} {queries : List String} {sub : String}
    {rest : List String} {posts : List Post} :
    runSubs search qual queries (sub :: rest) posts
      = (if (runQueries search qual sub queries posts).2 = true then
          runSubs search qual queries rest
            (runQueries search qual sub queries posts).1
        else if 200 ≤ (runQueries search qual sub queries posts).1.length then
          (runQueries search qual sub queries posts).1
        else runSubs search qual queries rest
          (runQueries search qual sub queries posts).1) := rfl

lemma runQueries_bound
    {search : String → String → Except String (List Submission)}
    {qual : Submission → Option Post} {sub : String} {L : Nat}
    (hL : ∀ s q l, search s q = Except.ok l → l.length ≤ L) :
    ∀ (qs : List String) (posts : List Post), posts.length ≤ 199 →
      (runQueries search qual sub qs posts).1.length ≤ 199 + L ∧
      ((runQueries search qual sub qs posts).2 = true →
        (runQueries search qual sub qs posts).1.length ≤ 199) := by
  intro qs
  induction qs with
  | nil =>
    intro posts h
    exact ⟨by show posts.length ≤ 199 + L; omega, fun _ => h⟩
  | cons q qs ih =>
    intro posts h
    cases hs : search sub q with
    | error e =>
      rw [runQueries_cons_err hs]
      exact ⟨by show posts.length ≤ 199 + L; omega, fun _ => h⟩
    | ok res =>
      have hres : res.length ≤ L := hL _ _ _ hs
      have hfm : (res.filterMap qual).length ≤ res.length :=
        List.length_filterMap_le qual res
      have hlen2 : (posts ++ res.filterMap qual).length ≤ 199 + L := by
        rw [List.length_append]; omega
      by_cases hbr : 200 ≤ (posts ++ res.filterMap qual).length
      · rw [runQueries_cons_ok_break hs hbr]
        exact ⟨hlen2, fun hf => by simp at hf⟩
      · have hle : (posts ++ res.filterMap qual).length ≤ 199 := by omega
        rw [runQueries_cons_ok_cont hs hle]
        exact ih _ hle

lemma runSubs_bound
    {search : String → String → Except String (List Submission)}
    {qual : Submission → Option Post} {queries : List String} {L : Nat}
    (hL : ∀ s q l, search s q = Except.ok l → l.length ≤ L) :
    ∀ (subs : List String) (posts : List Post), posts.length ≤ 199 →
      (runSubs search qual queries subs posts).length ≤ 199 + L := by
  intro subs
  induction subs with
  | nil =>
    intro posts h
    show posts.length ≤ 199 + L
    omega
  | cons sub rest ih =>
    intro posts h
    obtain ⟨h1, h2⟩ := runQueries_bound hL queries posts h
    rw [runSubs_cons]
    by_cases hf : (runQueries search qual sub queries posts).2 = true
    · rw [if_pos hf]
      exact ih _ (h2 hf)
    · rw [if_neg hf]
      by_cases hb : 200 ≤ (runQueries search qual sub queries posts).1.length
      · rw [if_pos hb]
        exact h1
      · rw [if_neg hb]
        exact ih _ (by omega)

lemma dedupAux_length_le : ∀ (l : List Post) (seen : List String),
    (dedupAux seen l).length ≤ l.length := by
  intro l
  induction l with
  | nil => intro seen; simp [dedupAux]
  | cons p rest ih =>
    intro seen
    show (if p.Permalink ∈ seen then dedupAux seen rest
      else p :: dedupAux (p.Permalink :: seen) rest).length ≤ rest.length + 1
    split
    · have := ih seen; omega
    · have := ih (p.Permalink :: seen); simp; omega

lemma dedupAux_mem : ∀ (l : List Post) (seen : List String) (q : Post),
    q ∈ dedupAux seen l →
      q ∈ l ∧ q.Permalink ∉ seen ∧
        l.find? (fun r => decide (r.Permalink = q.Permalink)) = some q := by
  intro l
  induction l with
  | nil => intro seen q h; simp [dedupAux] at h
  | cons p rest ih =>
    intro seen q h
    by_cases hp : p.Permalink ∈ seen
    · have h' : q ∈ dedupAux seen rest := by
        have : dedupAux seen (p :: rest) = dedupAux seen rest := by
          show (if p.Permalink ∈ seen then dedupAux seen rest
            else p :: dedupAux (p.Permalink :: seen) rest) = _
          rw [if_pos hp]
        rwa [this] at h
      obtain ⟨h1, h2, h3⟩ := ih seen q h'
      have hne : p.Permalink ≠ q.Permalink := fun he => h2 (he ▸ hp)
      refine ⟨List.mem_cons_of_mem p h1, h2, ?_⟩
      rw [List.find?_cons]
      simp only [hne, decide_eq_true_eq, if_neg]
      simpa [hne] using h3
    · have heq : dedupAux seen (p :: rest)
          = p :: dedupAux (p.Permalink :: seen) rest := by
        show (if p.Permalink ∈ seen then dedupAux seen rest
          else p :: dedupAux (p.Permalink :: seen) rest) = _
        rw [if_neg hp]
      rw [heq] at h
      rcases List.mem_cons.mp h with rfl | h'
      · refine ⟨List.mem_cons_self _ _, hp, ?_⟩
        rw [List.find?_cons]
        simp
      · obtain ⟨h1, h2, h3⟩ := ih _ q h'
        have hne : p.Permalink ≠ q.Permalink := by
          intro he
          exact h2 (he ▸ List.mem_cons_self _ _)
        have h2' : q.Permalink ∉ seen := fun hq =>
          h2 (List.mem_cons_of_mem _ hq)
        refine ⟨List.mem_cons_of_mem p h1, h2', ?_⟩
        rw [List.find?_cons]
        simpa [hne] using h3

lemma dedupAux_pairwise : ∀ (l : List Post) (seen : List String),
    (dedupAux seen l).Pairwise (fun a b => a.Permalink ≠ b.Permalink) := by
  intro l
  induction l with
  | nil => intro seen; simp [dedupAux]
  | cons p rest ih =>
    intro seen
    show (if p.Permalink ∈ seen then dedupAux seen rest
      else p :: dedupAux (p.Permalink :: seen) rest).Pairwise _
    split
    · exact ih seen
    · refine List.Pairwise.cons ?_ (ih _)
      intro b hb
      have h2 := (dedupAux_mem rest _ b hb).2.1
      intro he
      exact h2 (he ▸ List.mem_cons_self _ _)

lemma dedupAux_covers : ∀ (l : List Post) (seen : List String) (p : Post),
    p ∈ l → p.Permalink ∉ seen →
      ∃ q ∈ dedupAux seen l, q.Permalink = p.Permalink := by
  intro l
  induction l with
  | nil => intro seen p h; simp at h
  | cons r rest ih =>
    intro seen p hmem hns
    by_cases hr : r.Permalink ∈ seen
    · have heq : dedupAux seen (r :: rest) = dedupAux seen rest := by
        show (if r.Permalink ∈ seen then dedupAux seen rest
          else r :: dedupAux (r.Permalink :: seen) rest) = _
        rw [if_pos hr]
      rw [heq]
      rcases List.mem_cons.mp hmem with rfl | hmem'
      · exact absurd hr hns
      · exact ih seen p hmem' hns
    · have heq : dedupAux seen (r :: rest)
          = r :: dedupAux (r.Permalink :: seen) rest := by
        show (if r.Permalink ∈ seen then dedupAux seen rest
          else r :: dedupAux (r.Permalink :: seen) rest) = _
        rw [if_neg hr]
      rw [heq]
      rcases List.mem_cons.mp hmem with rfl | hmem'
      · exact ⟨p, List.mem_cons_self _ _, rfl⟩
      · by_cases hpr : p.Permalink = r.Permalink
        · exact ⟨r, List.mem_cons_self _ _, hpr.symm⟩
        · obtain ⟨q, hq, he⟩ := ih (r.Permalink :: seen) p hmem'
            (by
              intro hc
              rcases List.mem_cons.mp hc with hc1 | hc2
              · exact hpr hc1
              · exact hns hc2)
          exact ⟨q, List.mem_cons_of_mem r hq, he⟩

/-- C9: the pipeline output has exactly one record per distinct permalink:
its permalinks are pairwise distinct, every accumulated qualifying post is
represented by a record with its permalink, and each output record is the
*first* accumulated post carrying its permalink (later duplicates are
dropped). -/
theorem c9_dedup_permalink
    (search : String → String → Except String (List Submission))
    (pl : String → String) (fz : Fuzz) (keyword_input : String)
    (start_date end_date : Int) (subreddits : List String)
    (comment_filter : Option (String × Int)) (fuzzy_threshold : Nat) :
    (get_enhanced_reddit_posts search pl fz keyword_input start_date end_date
      subreddits comment_filter fuzzy_threshold).Pairwise
        (fun a b => a.Permalink ≠ b.Permalink) ∧
    (process_multiple_keywords pl keyword_input ≠ [] →
      get_enhanced_reddit_posts search pl fz keyword_input start_date end_date
          subreddits comment_filter fuzzy_threshold
        = dedupAux []
            (runSubs search
              (qualifySubmission fz (process_multiple_keywords pl keyword_input)
                start_date end_date comment_filter fuzzy_threshold)
              (searchQueries (process_multiple_keywords pl keyword_input))
              (if subreddits = [] then ["all"] else subreddits) []) ∧
      (∀ p ∈ runSubs search
              (qualifySubmission fz (process_multiple_keywords pl keyword_input)
                start_date end_date comment_filter fuzzy_threshold)
              (searchQueries (process_multiple_keywords pl keyword_input))
              (if subreddits = [] then ["all"] else subreddits) [],
        ∃ q ∈ get_enhanced_reddit_posts search pl fz keyword_input start_date
            end_date subreddits comment_filter fuzzy_threshold,
          q.Permalink = p.Permalink) ∧
      (∀ q ∈ get_enhanced_reddit_posts search pl fz keyword_input start_date
          end_date subreddits comment_filter fuzzy_threshold,
        q ∈ runSubs search
              (qualifySubmission fz (process_multiple_keywords pl keyword_input)
                start_date end_date comment_filter fuzzy_threshold)
              (searchQueries (process_multiple_keywords pl keyword_input))
              (if subreddits = [] then ["all"] else subreddits) [] ∧
          (runSubs search
              (qualifySubmission fz (process_multiple_keywords pl keyword_input)
                start_date end_date comment_filter fuzzy_threshold)
              (searchQueries (process_multiple_keywords pl keyword_input))
              (if subreddits = [] then ["all"] else subreddits) []).find?
              (fun r => decide (r.Permalink = q.Permalink)) = some q)) := by
  by_cases hkv : process_multiple_keywords pl keyword_input = []
  · have hout : get_enhanced_reddit_posts search pl fz keyword_input start_date
        end_date subreddits comment_filter fuzzy_threshold = [] := by
      unfold get_enhanced_reddit_posts
      rw [if_pos hkv]
    rw [hout]
    exact ⟨List.Pairwise.nil, fun h => absurd hkv h⟩
  · have hout : get_enhanced_reddit_posts search pl fz keyword_input start_date
        end_date subreddits comment_filter fuzzy_threshold
      = dedupAux []
          (runSubs search
            (qualifySubmission fz (process_multiple_keywords pl keyword_input)
              start_date end_date comment_filter fuzzy_threshold)
            (searchQueries (process_multiple_keywords pl keyword_input))
            (if subreddits = [] then ["all"] else subreddits) []) := by
      unfold get_enhanced_reddit_posts
      rw [if_neg hkv]
    constructor
    · rw [hout]
      exact dedupAux_pairwise _ _
    · intro _
      refine ⟨hout, ?_, ?_⟩
      · intro p hp
        rw [hout]
        exact dedupAux_covers _ [] p hp (by simp)
      · intro q hq
        rw [hout] at hq
        obtain ⟨h1, _, h3⟩ := dedupAux_mem _ [] q hq
        exact ⟨h1, h3⟩

/-! ### Concrete pipeline fixtures for counterexamples and witnesses -/

/-- A permalink whose length encodes `i`, so that distinctness of indices is
immediate. -/
def pLink (i : Nat) : String := ⟨'/' :: 'p' :: List.replicate i 'a'⟩

/-- A qualifying self-post fixture: created inside the date range, titled "k"
so that the keyword "k" substring-matches. -/
def mkSub (i : Nat) : Submission :=
  { title := "k", selftext := "", is_self := true, url := "", created_utc := 5,
    num_comments := 0, score := 1, upvote_ratio := 1, subreddit := "all",
    permalink := pLink i }

/-- The output record the pipeline builds from `mkSub i`. -/
def mkPost (i : Nat) : Post :=
  { Title := "k", Body := "", Score := 1, UpvoteRatio := 1, Comments := 0,
    Subreddit := "all", Permalink := "https://reddit.com" ++ pLink i,
    Created := 5, MatchedKeyword := some "k", MatchScore := 100,
    MarketingScore := 0, MarketingPotential := "Very Low",
    RelevanceReasons := "No specific signals" }

def batchA : List Submission := (List.range 100).map mkSub

def batchB : List Submission :=
  ((List.range 99).map (fun j => 100 + j)).map mkSub

def batchC : List Submission := ([199, 200] : List Nat).map mkSub

/-- A search collaborator whose calls return at most 100 results (the
`limit=100` the source passes to the API): 100 qualifying posts for the
keyword query, 99 for the first intent query, 2 for the second. -/
def cex1search : String → String → Except String (List Submission) :=
  fun _ q =>
    if q = "title:\"k\"" then Except.ok batchA
    else if q = "title:\"looking for\"" then Except.ok batchB
    else if q = "title:\"need help\"" then Except.ok batchC
    else Except.ok []

/-- A search collaborator that always succeeds with no results. -/
def okEmptySearch : String → String → Except String (List Submission) :=
  fun _ _ => Except.ok []

/-- A qualifying self-post fixture in channel `name`. -/
def chSub (name : String) (i : Nat) : Submission :=
  { title := "k", selftext := "", is_self := true, url := "", created_utc := 5,
    num_comments := 0, score := 1, upvote_ratio := 1, subreddit := name,
    permalink := "/" ++ name ++ "/" ++ Nat.repr i }

/-- A search collaborator for which channel "a" yields one qualifying post on
the first query and then raises; channel "b" yields one qualifying post. -/
def cex3search : String → String → Except String (List Submission) :=
  fun sub q =>
    if sub = "a" then
      (if q = "title:\"k\"" then Except.ok [chSub "a" 0]
       else Except.error "boom")
    else if q = "title:\"k\"" then Except.ok [chSub "b" 0]
    else Except.ok []

/-- A qualifying post sharing its permalink with `mkSub 0` but with a
different title. -/
def dupSub : Submission :=
  { title := "k second copy", selftext := "", is_self := true, url := "",
    created_utc := 5, num_comments := 0, score := 1, upvote_ratio := 1,
    subreddit := "all", permalink := pLink 0 }

/-- A search collaborator that returns the same permalink through two
different queries. -/
def c9search : String → String → Except String (List Submission) :=
  fun _ q =>
    if q = "title:\"k\"" then Except.ok [mkSub 0]
    else if q = "title:\"looking for\"" then Except.ok [dupSub, mkSub 1]
    else Except.ok []

/-! ### Generic helper lemmas for the fixtures -/

lemma filterMap_all_some {α β : Type} (g : α → Option β) (f : α → β)
    (h : ∀ x, g x = some (f x)) : ∀ l : List α, l.filterMap g = l.map f := by
  intro l
  induction l with
  | nil => rfl
  | cons x xs ih => rw [List.filterMap_cons, h x, List.map_cons, ih]

lemma dedupAux_id_of_pairwise : ∀ (l : List Post) (seen : List String),
    l.Pairwise (fun a b => a.Permalink ≠ b.Permalink) →
    (∀ p ∈ l, p.Permalink ∉ seen) → dedupAux seen l = l := by
  intro l
  induction l with
  | nil => intro seen _ _; rfl
  | cons p rest ih =>
    intro seen hpw hns
    have hp : p.Permalink ∉ seen := hns p (List.mem_cons_self _ _)
    obtain ⟨hhead, htail⟩ := List.pairwise_cons.mp hpw
    show (if p.Permalink ∈ seen then dedupAux seen rest
      else p :: dedupAux (p.Permalink :: seen) rest) = p :: rest
    rw [if_neg hp]
    congr 1
    refine ih _ htail ?_
    intro q hq hc
    rcases List.mem_cons.mp hc with hc1 | hc2
    · exact hhead q hq hc1.symm
    · exact hns q (List.mem_cons_of_mem _ hq) hc2

lemma mkPost_permalink_len (i : Nat) :
    (mkPost i).Permalink.data.length = 20 + i := by
  show ("https://reddit.com" ++ pLink i).data.length = 20 + i
  rw [String.data_append, List.length_append]
  have h18 : ("https://reddit.com" : String).data.length = 18 := rfl
  rw [h18]
  show 18 + ('/' :: 'p' :: List.replicate i 'a').length = 20 + i
  simp [List.length_replicate]
  omega

/-- C1 (amended): the cap is enforced only at query boundaries.  Once the
accumulated count reaches 200 no further query is processed, so if every
successful search call returns at most `L` candidate posts, the pipeline
output has length at most `199 + L` (it can exceed 200, but never by more
than one query's yield; with the source's per-call API limit of 100 this
bound is 299). -/
theorem c1_output_bound
    (search : String → String → Except String (List Submission))
    (pl : String → String) (fz : Fuzz) (keyword_input : String)
    (start_date end_date : Int) (subreddits : List String)
    (comment_filter : Option (String × Int)) (fuzzy_threshold : Nat) (L : Nat)
    (hL : ∀ s q l, search s q = Except.ok l → l.length ≤ L) :
    (get_enhanced_reddit_posts search pl fz keyword_input start_date end_date
      subreddits comment_filter fuzzy_threshold).length ≤ 199 + L := by
  by_cases hkv : process_multiple_keywords pl keyword_input = []
  · have hout : get_enhanced_reddit_posts search pl fz keyword_input start_date
        end_date subreddits comment_filter fuzzy_threshold = [] := by
      unfold get_enhanced_reddit_posts
      rw [if_pos hkv]
    rw [hout]
    simp
  · have hout : get_enhanced_reddit_posts search pl fz keyword_input start_date
        end_date subreddits comment_filter fuzzy_threshold
      = dedupAux []
          (runSubs search
            (qualifySubmission fz (process_multiple_keywords pl keyword_input)
              start_date end_date comment_filter fuzzy_threshold)
            (searchQueries (process_multiple_keywords pl keyword_input))
            (if subreddits = [] then ["all"] else subreddits) []) := by
      unfold get_enhanced_reddit_posts
      rw [if_neg hkv]
    rw [hout]
    have h1 := dedupAux_length_le
      (runSubs search
        (qualifySubmission fz (process_multiple_keywords pl keyword_input)
          start_date end_date comment_filter fuzzy_threshold)
        (searchQueries (process_multiple_keywords pl keyword_input))
        (if subreddits = [] then ["all"] else subreddits) []) []
    have h2 := @runSubs_bound search
      (qualifySubmission fz (process_multiple_keywords pl keyword_input)
        start_date end_date comment_filter fuzzy_threshold)
      (searchQueries (process_multiple_keywords pl keyword_input)) L hL
      (if subreddits = [] then ["all"] else subreddits) [] (by simp)
    omega

/-- Witness for the amended C1 with the trivial collaborator: every call
returns at most 0 posts and the output length is at most 199 + 0. -/
theorem c1_output_bound_witness :
    (∀ s q l, okEmptySearch s q = Except.ok l → l.length ≤ 0) ∧
    (get_enhanced_reddit_posts okEmptySearch idPl myFz "k" 0 10 [] none
      80).length ≤ 199 + 0 := by
  have h : ∀ s q l, okEmptySearch s q = Except.ok l → l.length ≤ 0 := by
    intro s q l hl
    simp only [okEmptySearch] at hl
    have hl' : ([] : List Submission) = l := by
      exact (Except.ok.inj hl)
    rw [← hl']
    simp
  exact ⟨h, c1_output_bound okEmptySearch idPl myFz "k" 0 10 [] none 80 0 h⟩

/-- Counterexample to C1 as stated: with a collaborator whose calls each
return at most 100 results, the pipeline returns 201 records — more than the
200 cap — because the cap is only checked after a whole query's results have
been processed (100 + 99 + 2 qualifying posts across three queries). -/
theorem c1_counterexample :
    200 < (get_enhanced_reddit_posts cex1search idPl myFz "k" 0 10 [] none
      80).length := by
  have hqual : ∀ i, qualifySubmission myFz ["k"] 0 10 none 80 (mkSub i)
      = some (mkPost i) := fun _ => rfl
  have hfm : ∀ l : List Nat,
      (l.map mkSub).filterMap (qualifySubmission myFz ["k"] 0 10 none 80)
        = l.map mkPost := by
    intro l
    rw [List.filterMap_map]
    exact filterMap_all_some _ _ hqual l
  have hA : batchA.filterMap (qualifySubmission myFz ["k"] 0 10 none 80)
      = (List.range 100).map mkPost := by
    rw [show batchA = (List.range 100).map mkSub from rfl]
    exact hfm _
  have hB : batchB.filterMap (qualifySubmission myFz ["k"] 0 10 none 80)
      = ((List.range 99).map (fun j => 100 + j)).map mkPost := by
    rw [show batchB = ((List.range 99).map (fun j => 100 + j)).map mkSub
      from rfl]
    exact hfm _
  have hC : batchC.filterMap (qualifySubmission myFz ["k"] 0 10 none 80)
      = ([199, 200] : List Nat).map mkPost := by
    rw [show batchC = ([199, 200] : List Nat).map mkSub from rfl]
    exact hfm _
  have hs1 : cex1search "all" "title:\"k\"" = Except.ok batchA := rfl
  have hs2 : cex1search "all" "title:\"looking for\"" = Except.ok batchB := rfl
  have hs3 : cex1search "all" "title:\"need help\"" = Except.ok batchC := rfl
  have hlen1 : (([] : List Post)
      ++ batchA.filterMap (qualifySubmission myFz ["k"] 0 10 none 80)).length
        ≤ 199 := by
    rw [hA]
    simp
  have hlen2 : ((([] : List Post) ++ (List.range 100).map mkPost)
      ++ batchB.filterMap (qualifySubmission myFz ["k"] 0 10 none 80)).length
        ≤ 199 := by
    rw [hB]
    simp
  have hlen3 : 200 ≤ (((([] : List Post) ++ (List.range 100).map mkPost)
      ++ ((List.range 99).map (fun j => 100 + j)).map mkPost)
      ++ batchC.filterMap (qualifySubmission myFz ["k"] 0 10 none 80)).length
      := by
    rw [hC]
    simp
  have e1 : runQueries cex1search (qualifySubmission myFz ["k"] 0 10 none 80)
      "all" (searchQueries ["k"]) []
      = (((([] : List Post) ++ (List.range 100).map mkPost)
          ++ ((List.range 99).map (fun j => 100 + j)).map mkPost)
          ++ ([199, 200] : List Nat).map mkPost, false) := by
    show runQueries cex1search (qualifySubmission myFz ["k"] 0 10 none 80)
      "all" ("title:\"k\"" :: "title:\"looking for\"" :: "title:\"need help\""
        :: "title:\"recommendations\"" :: "title:\"help me choose\""
        :: "title:\"advice\"" :: "title:\"suggestions\"" :: []) [] = _
    rw [runQueries_cons_ok_cont hs1 hlen1, hA,
      runQueries_cons_ok_cont hs2 hlen2, hB,
      runQueries_cons_ok_break hs3 hlen3, hC]
  have e2 : runSubs cex1search (qualifySubmission myFz ["k"] 0 10 none 80)
      (searchQueries ["k"]) ["all"] []
      = ((([] : List Post) ++ (List.range 100).map mkPost)
          ++ ((List.range 99).map (fun j => 100 + j)).map mkPost)
          ++ ([199, 200] : List Nat).map mkPost := by
    rw [runSubs_cons, e1]
    rw [if_neg (by simp)]
    rw [if_pos (by simp)]
  have e3 : get_enhanced_reddit_posts cex1search idPl myFz "k" 0 10 [] none 80
      = dedupAux [] (((([] : List Post) ++ (List.range 100).map mkPost)
          ++ ((List.range 99).map (fun j => 100 + j)).map mkPost)
          ++ ([199, 200] : List Nat).map mkPost) := by
    show dedupAux [] (runSubs cex1search
      (qualifySubmission myFz ["k"] 0 10 none 80) (searchQueries ["k"])
      ["all"] []) = _
    rw [e2]
  have hBIGmap : ((([] : List Post) ++ (List.range 100).map mkPost)
      ++ ((List.range 99).map (fun j => 100 + j)).map mkPost)
      ++ ([199, 200] : List Nat).map mkPost
      = ((List.range 100 ++ (List.range 99).map (fun j => 100 + j))
          ++ ([199, 200] : List Nat)).map mkPost := by
    simp [List.map_append]
  have hinj : ∀ a b : Nat, (mkPost a).Permalink = (mkPost b).Permalink →
      a = b := by
    intro a b he
    have ha := mkPost_permalink_len a
    have hb := mkPost_permalink_len b
    rw [he] at ha
    omega
  have hpw : (((([] : List Post) ++ (List.range 100).map mkPost)
      ++ ((List.range 99).map (fun j => 100 + j)).map mkPost)
      ++ ([199, 200] : List Nat).map mkPost).Pairwise
        (fun a b => a.Permalink ≠ b.Permalink) := by
    rw [hBIGmap, List.pairwise_map]
    have hnd : ((List.range 100 ++ (List.range 99).map (fun j => 100 + j))
        ++ ([199, 200] : List Nat)).Nodup := by decide
    exact hnd.imp (fun hab he => hab (hinj _ _ he))
  have e4 : dedupAux [] (((([] : List Post) ++ (List.range 100).map mkPost)
      ++ ((List.range 99).map (fun j => 100 + j)).map mkPost)
      ++ ([199, 200] : List Nat).map mkPost)
      = ((([] : List Post) ++ (List.range 100).map mkPost)
          ++ ((List.range 99).map (fun j => 100 + j)).map mkPost)
          ++ ([199, 200] : List Nat).map mkPost :=
    dedupAux_id_of_pairwise _ [] hpw (by simp)
  rw [e3, e4]
  simp

/-- Counterexample to C3 as stated: channel "a" raises on its second query,
yet its first-query result is present in the output (the channel's results
are not absent) while channel "b" still contributes — so the failing
channel's pre-error results are kept, not dropped. -/
theorem c3_counterexample :
    ((get_enhanced_reddit_posts cex3search idPl myFz "k" 0 10 ["a", "b"] none
      80).map (fun p => p.Subreddit)) = ["a", "b"] ∧
    cex3search "a" "title:\"looking for\"" = Except.error "boom" :=
  ⟨by decide, rfl⟩

/-- C3 (amended): an exception while a channel's queries are processed is
caught and only skips the *rest* of that channel's queries: the qualifying
posts gathered from that channel before the error are kept, the remaining
channels are processed next, and the invocation still returns normally. -/
theorem c3_partial_channel
    (search : String → String → Except String (List Submission))
    (qual : Submission → Option Post) (sub : String) (rest : List String)
    (q1 q2 : String) (qs : List String) (l1 : List Submission) (e : String)
    (posts : List Post)
    (h1 : search sub q1 = Except.ok l1)
    (h2 : search sub q2 = Except.error e)
    (hlen : (posts ++ l1.filterMap qual).length ≤ 199) :
    runSubs search qual (q1 :: q2 :: qs) (sub :: rest) posts
      = runSubs search qual (q1 :: q2 :: qs) rest
          (posts ++ l1.filterMap qual) := by
  have hq : runQueries search qual sub (q1 :: q2 :: qs) posts
      = (posts ++ l1.filterMap qual, true) := by
    rw [runQueries_cons_ok_cont h1 hlen, runQueries_cons_err h2]
  rw [runSubs_cons, hq]
  rw [if_pos rfl]

/-- Witness for the amended C3 at the concrete failing collaborator. -/
theorem c3_partial_channel_witness :
    cex3search "a" "title:\"k\"" = Except.ok [chSub "a" 0] ∧
    cex3search "a" "title:\"looking for\"" = Except.error "boom" ∧
    (([] : List Post) ++ [chSub "a" 0].filterMap
      (qualifySubmission myFz ["k"] 0 10 none 80)).length ≤ 199 ∧
    runSubs cex3search (qualifySubmission myFz ["k"] 0 10 none 80)
        ("title:\"k\"" :: "title:\"looking for\"" :: ["title:\"need help\"",
          "title:\"recommendations\"", "title:\"help me choose\"",
          "title:\"advice\"", "title:\"suggestions\""]) ("a" :: ["b"]) []
      = runSubs cex3search (qualifySubmission myFz ["k"] 0 10 none 80)
          ("title:\"k\"" :: "title:\"looking for\"" :: ["title:\"need help\"",
            "title:\"recommendations\"", "title:\"help me choose\"",
            "title:\"advice\"", "title:\"suggestions\""]) ["b"]
          (([] : List Post) ++ [chSub "a" 0].filterMap
            (qualifySubmission myFz ["k"] 0 10 none 80)) :=
  ⟨rfl, rfl, by decide,
    c3_partial_channel cex3search
      (qualifySubmission myFz ["k"] 0 10 none 80) "a" ["b"]
      "title:\"k\"" "title:\"looking for\""
      ["title:\"need help\"", "title:\"recommendations\"",
        "title:\"help me choose\"", "title:\"advice\"", "title:\"suggestions\""]
      [chSub "a" 0] "boom" [] rfl rfl (by decide)⟩

/-- Witness for C9 with a collaborator that returns a duplicated permalink
through two different queries. -/
theorem c9_dedup_permalink_witness :
    process_multiple_keywords idPl "k" ≠ [] ∧
    get_enhanced_reddit_posts c9search idPl myFz "k" 0 10 [] none 80
      = dedupAux []
          (runSubs c9search
            (qualifySubmission myFz (process_multiple_keywords idPl "k") 0 10
              none 80)
            (searchQueries (process_multiple_keywords idPl "k"))
            (if ([] : List String) = [] then ["all"] else []) []) :=
  ⟨by decide,
    ((c9_dedup_permalink c9search idPl myFz "k" 0 10 [] none 80).2
      (by decide)).1⟩
